import Mathlib

/-!
Verification of the engarde check library (`engarde/checks.py`).

A pandas `DataFrame` is embedded as a row index (list of row identifiers),
an ordered list of named columns, and per-column dtype tags supplied by the
table engine.  A cell is `Option ℚ`: `none` models a missing value (NaN).
Each check returns `Except payload DataFrame`, where `Except.error` embeds
the `raise AssertionError(payload)` path and `Except.ok` the `return df`
path.  Numeric aggregation follows pandas defaults: `mean`/`std` skip
missing cells, `std` is the sample standard deviation (`ddof=1`), and any
comparison against a missing value (or a NaN statistic) is false.
-/

namespace Engarde

structure DataFrame where
  index : List ℚ
  cols : List (String × List (Option ℚ))
  dtypes : List (String × String)
deriving DecidableEq, Repr

/-- Embeds `df[k]`: column lookup by name (first column with that name). -/
def colData (df : DataFrame) (k : String) : List (Option ℚ) :=
  ((df.cols.find? (fun c => c.1 == k)).map Prod.snd).getD []

/-- Embeds `df.dtypes[k]`. -/
def dtypeOf (df : DataFrame) (k : String) : String :=
  ((df.dtypes.find? (fun c => c.1 == k)).map Prod.snd).getD ""

/-- Embeds `df.shape`: `(row count, column count)`. -/
def shape (df : DataFrame) : Nat × Nat := (df.index.length, df.cols.length)

/-- Modelled from the spec: `bad_locations` lives in `engarde/utils.py`, which
is not among the sources; per spec §4.1 the Violation Locator renders a
boolean mask into the `(row identifier, column name)` pairs at which the mask
is true, in the mask's own layout order. -/
def bad_locations (index : List ℚ) (mask : List (String × List Bool)) :
    List (ℚ × String) :=
  (mask.map (fun c => (index.zip c.2).filterMap
    (fun p => if p.2 then some (p.1, c.1) else none))).flatten

/-- Embeds `df[columns].isnull()` as a per-column boolean mask. -/
def isnullMask (df : DataFrame) (columns : List String) :
    List (String × List Bool) :=
  columns.map (fun k => (k, (colData df k).map Option.isNone))

/-- Embeds `none_missing(df, columns=None)`. -/
def none_missing (df : DataFrame) (columns : Option (List String)) :
    Except (List (ℚ × String)) DataFrame :=
  let cs := columns.getD (df.cols.map Prod.fst)
  if (isnullMask df cs).any (fun c => c.2.any id) then
    .error (bad_locations df.index (isnullMask df cs))
  else .ok df

/-- Pandas comparison of possibly-missing cells: `a <= b`, false when either
side is NaN. -/
def leOpt : Option ℚ → Option ℚ → Bool
  | some a, some b => decide (a ≤ b)
  | _, _ => false

/-- Embeds `pd.Index(...).is_monotonic_increasing`: consecutive pairs compare `<=`. -/
def is_monotonic_increasing (l : List (Option ℚ)) : Bool :=
  (l.zip l.tail).all (fun p => leOpt p.1 p.2)

/-- Embeds `pd.Index(...).is_monotonic_decreasing`. -/
def is_monotonic_decreasing (l : List (Option ℚ)) : Bool :=
  (l.zip l.tail).all (fun p => leOpt p.2 p.1)

/-- Embeds `s.to_series().diff().dropna()`: consecutive differences, the leading NaN
and any difference involving a missing cell dropped. -/
def diffDropna (l : List (Option ℚ)) : List ℚ :=
  (l.zip l.tail).filterMap (fun p =>
    match p with
    | (some a, some b) => some (b - a)
    | _ => none)

/-- The per-column test of `is_monotonic`: base monotonicity by direction
(`some true` = increasing, `some false` = decreasing, `none` = either),
conjoined with the strict-difference test when `strict` is set. -/
def monoGood (s : List (Option ℚ)) (increasing : Option Bool) (strict : Bool) :
    Bool :=
  let base :=
    match increasing with
    | some true => is_monotonic_increasing s
    | none => is_monotonic_increasing s || is_monotonic_decreasing s
    | some false => is_monotonic_decreasing s
  if strict then
    base &&
      (match increasing with
       | some true => (diffDropna s).all (fun d => decide (0 < d))
       | none => (diffDropna s).all (fun d => decide (0 < d)) ||
                 (diffDropna s).all (fun d => decide (d < 0))
       | some false => (diffDropna s).all (fun d => decide (d < 0)))
  else base

/-- Embeds `is_monotonic(df, items=None, increasing=None, strict=False)`: when
`items` is omitted every column uses the top-level `(increasing, strict)`
pair; the loop raises a bare `AssertionError` on the first failing column. -/
def is_monotonic (df : DataFrame)
    (items : Option (List (String × (Option Bool × Bool))))
    (increasing : Option Bool) (strict : Bool) : Except Unit DataFrame :=
  let its := items.getD (df.cols.map (fun c => (c.1, (increasing, strict))))
  if its.all (fun it => monoGood (colData df it.1) it.2.1 it.2.2) then .ok df
  else .error ()

/-- Embeds `is_shape(df, shape)`. -/
def is_shape (df : DataFrame) (sh : Nat × Nat) : Except String DataFrame :=
  if shape df = sh then .ok df
  else
    .error ("Expected shape: " ++ toString sh.1 ++ "," ++ toString sh.2 ++
      "\n\t\tActual shape:   " ++ toString (shape df).1 ++ "," ++
      toString (shape df).2)

/-- Modelled from the spec: `pandas.Index.get_duplicates` belongs to the
external table engine; per spec §4.5 the failure payload is the set of
duplicated identifiers (here: each identifier occurring more than once,
listed once, in first-occurrence order). -/
def get_duplicates (idx : List ℚ) : List ℚ :=
  idx.dedup.filter (fun v => 2 ≤ idx.count v)

/-- Embeds `unique_index(df)`: `df.index.is_unique`. -/
def unique_index (df : DataFrame) : Except (List ℚ) DataFrame :=
  if df.index.Nodup then .ok df else .error (get_duplicates df.index)

/-- Embeds `df[k].isin(v)` for one cell. -/
def isin (v : Option ℚ) (allowed : List (Option ℚ)) : Bool :=
  decide (v ∈ allowed)

/-- Embeds `df.loc[~df[k].isin(v), k]`: the non-member values keyed by row id. -/
def setBad (df : DataFrame) (k : String) (allowed : List (Option ℚ)) :
    List (ℚ × Option ℚ) :=
  (df.index.zip (colData df k)).filter (fun p => !isin p.2 allowed)

/-- Embeds `within_set(df, items)`: raises `AssertionError('Not in set', bad)` on the
first column in `items` order holding a non-member value. -/
def within_set (df : DataFrame) (items : List (String × List (Option ℚ))) :
    Except (String × List (ℚ × Option ℚ)) DataFrame :=
  match items with
  | [] => .ok df
  | (k, v) :: rest =>
    if (colData df k).all (fun x => isin x v) then within_set df rest
    else .error ("Not in set", setBad df k v)

/-- One cell of `(lower > df[k]) | (upper < df[k])`; false on a missing
cell (NaN comparisons are false). -/
def rangeBadCell (lower upper : ℚ) (v : Option ℚ) : Bool :=
  match v with
  | none => false
  | some x => decide (lower > x) || decide (upper < x)

/-- The boolean Series `(lower > df[k]) | (upper < df[k])`, keyed by row id. -/
def rangeBadMask (df : DataFrame) (k : String) (lower upper : ℚ) :
    List (ℚ × Bool) :=
  df.index.zip ((colData df k).map (rangeBadCell lower upper))

/-- Embeds `within_range(df, items)`: raises `AssertionError("Outside range", bad)`
on the first column in `items` order with a value outside its bounds. -/
def within_range (df : DataFrame) (items : List (String × (ℚ × ℚ))) :
    Except (String × List (ℚ × Bool)) DataFrame :=
  match items with
  | [] => .ok df
  | (k, b) :: rest =>
    if (colData df k).any (rangeBadCell b.1 b.2) then
      .error ("Outside range", rangeBadMask df k b.1 b.2)
    else within_range df rest

/-- Non-missing values of a column (pandas aggregations skip NaN). -/
def nonNull (l : List (Option ℚ)) : List ℚ := l.filterMap id

/-- Embeds `df.mean()` for one column, over its non-missing values. -/
def colMean (l : List ℚ) : ℚ := l.sum / l.length

/-- Sample variance (`df.std()` squared, `ddof=1`). -/
def colVar (l : List ℚ) : ℚ :=
  (l.map (fun x => (x - colMean l) ^ 2)).sum / ((l.length : ℚ) - 1)

/-- One cell of `np.abs(df - means) < n * stds`.  The code compares against
`n * std` with `std = sqrt(colVar) ≥ 0`.  For `n ≥ 0` that strict comparison
is equivalent to `(x - mean)^2 < n^2 * var`, which stays inside ℚ; for
`n < 0` the right-hand side `n * std` is nonpositive and the comparison
against the nonnegative `|x - mean|` is false, which the `0 ≤ n` conjunct
captures (when `std = 0` both forms are already false).  A column with fewer
than two non-missing values has NaN `std` and a missing cell is NaN, and a
NaN comparison is false, so such cells are never inliers. -/
def inlierCell (col : List (Option ℚ)) (n : ℚ) (v : Option ℚ) : Bool :=
  match v with
  | none => false
  | some x =>
    let d := nonNull col
    if 2 ≤ d.length then
      decide (0 ≤ n) && decide ((x - colMean d) ^ 2 < n ^ 2 * colVar d)
    else false

/-- Embeds `~inliers`: the outlier mask over the whole table. -/
def outlierMask (df : DataFrame) (n : ℚ) : List (String × List Bool) :=
  df.cols.map (fun c => (c.1, c.2.map (fun v => !inlierCell c.2 n v)))

/-- Embeds `within_n_std(df, n=3)`. -/
def within_n_std (df : DataFrame) (n : ℚ) :
    Except (List (ℚ × String)) DataFrame :=
  if (outlierMask df n).any (fun c => c.2.any id) then
    .error (bad_locations df.index (outlierMask df n))
  else .ok df

/-- Embeds `has_dtypes(df, items)`: first mismatching column (in `items` order)
raises with a message naming the column and expected dtype. -/
def has_dtypes (df : DataFrame) (items : List (String × String)) :
    Except String DataFrame :=
  match items with
  | [] => .ok df
  | (k, v) :: rest =>
    if dtypeOf df k == v then has_dtypes df rest
    else .error (k ++ " has the wrong dtype (" ++ v ++ ")")

/-! ### Concrete tables used by witnesses and counterexamples -/

/-- Eleven integer values: mean 0, sample variance 9, sample std exactly 3;
the value 9 sits exactly at `mean + 3 * std`. -/
def dfBoundary : DataFrame :=
  ⟨[0, 1, 2, 3, 4, 5, 6, 7, 8, 9, 10],
   [("a", [some 9, some (-1), some (-1), some (-1), some (-1), some (-1),
           some (-1), some (-1), some (-1), some (-1), some 0])],
   [("a", "float64")]⟩

/-- A two-row table every check passes. -/
def dfPass : DataFrame :=
  ⟨[0, 1], [("a", [some 1, some 2])], [("a", "int64")]⟩

/-- A single-row table. -/
def dfOneRow : DataFrame := ⟨[0], [("a", [some 7])], []⟩

/-- A constant two-row column. -/
def dfConst : DataFrame := ⟨[0, 1], [("a", [some 5, some 5])], []⟩

/-- Strictly ascending column. -/
def dfAsc : DataFrame := ⟨[0, 1, 2], [("a", [some 1, some 2, some 3])], []⟩

/-- Strictly descending column. -/
def dfDesc : DataFrame := ⟨[0, 1, 2], [("a", [some 3, some 2, some 1])], []⟩

/-- A column with no consistent order. -/
def dfWiggle : DataFrame := ⟨[0, 1, 2], [("a", [some 1, some 3, some 2])], []⟩

/-- Columns for the range/set witnesses: `a` touches its bounds, `g` has one
value out of range/set, `h` is entirely out of range/set. -/
def dfItems : DataFrame :=
  ⟨[0, 1, 2],
   [("a", [some 1, some 5, some 3]), ("g", [some 1, some 4, some 3]),
    ("h", [some 9, some 9, some 9])],
   []⟩

/-- Duplicated row identifiers. -/
def dfDup : DataFrame := ⟨[1, 2, 2, 3], [], []⟩

/-- Unique row identifiers. -/
def dfUniq : DataFrame := ⟨[1, 2, 3], [], []⟩

/-- A non-empty column holding only a missing value. -/
def dfNaN : DataFrame := ⟨[0], [("a", [none])], []⟩

/-- A non-empty column holding an actual value. -/
def dfVal : DataFrame := ⟨[0], [("a", [some 3])], []⟩

/-! ### Monotonicity: bridge lemmas between the embedded pandas predicates
and ordinary chain conditions on rational columns -/

theorem imi_cons2 (a b : Option ℚ) (t : List (Option ℚ)) :
    is_monotonic_increasing (a :: b :: t) =
      (leOpt a b && is_monotonic_increasing (b :: t)) := rfl

theorem imd_cons2 (a b : Option ℚ) (t : List (Option ℚ)) :
    is_monotonic_decreasing (a :: b :: t) =
      (leOpt b a && is_monotonic_decreasing (b :: t)) := rfl

theorem diffDropna_cons2 (a b : ℚ) (t : List (Option ℚ)) :
    diffDropna (some a :: some b :: t) = (b - a) :: diffDropna (some b :: t) :=
  rfl

theorem imi_iff (l : List ℚ) :
    is_monotonic_increasing (l.map some) = true ↔ List.Chain' (· ≤ ·) l := by
  induction l with
  | nil => simp [is_monotonic_increasing]
  | cons a t ih =>
    cases t with
    | nil => simp [is_monotonic_increasing]
    | cons b t2 =>
      rw [List.map_cons, List.map_cons, imi_cons2, ← List.map_cons,
        List.chain'_cons, Bool.and_eq_true, ih]
      simp [leOpt]

theorem imd_iff (l : List ℚ) :
    is_monotonic_decreasing (l.map some) = true ↔
      List.Chain' (fun a b => b ≤ a) l := by
  induction l with
  | nil => simp [is_monotonic_decreasing]
  | cons a t ih =>
    cases t with
    | nil => simp [is_monotonic_decreasing]
    | cons b t2 =>
      rw [List.map_cons, List.map_cons, imd_cons2, ← List.map_cons,
        List.chain'_cons, Bool.and_eq_true, ih]
      simp [leOpt]

theorem diffPos_iff (l : List ℚ) :
    ((diffDropna (l.map some)).all fun d => decide (0 < d)) = true ↔
      List.Chain' (· < ·) l := by
  induction l with
  | nil => simp [diffDropna]
  | cons a t ih =>
    cases t with
    | nil => simp [diffDropna]
    | cons b t2 =>
      rw [List.map_cons, List.map_cons, diffDropna_cons2, ← List.map_cons,
        List.chain'_cons, List.all_cons, Bool.and_eq_true, ih]
      simp [sub_pos]

theorem diffNeg_iff (l : List ℚ) :
    ((diffDropna (l.map some)).all fun d => decide (d < 0)) = true ↔
      List.Chain' (fun a b => b < a) l := by
  induction l with
  | nil => simp [diffDropna]
  | cons a t ih =>
    cases t with
    | nil => simp [diffDropna]
    | cons b t2 =>
      rw [List.map_cons, List.map_cons, diffDropna_cons2, ← List.map_cons,
        List.chain'_cons, List.all_cons, Bool.and_eq_true, ih]
      simp [sub_neg]

theorem chain'_of_mem_zip {R : ℚ → ℚ → Prop} {l : List ℚ}
    (h : List.Chain' R l) : ∀ p ∈ l.zip l.tail, R p.1 p.2 := by
  induction l with
  | nil => simp
  | cons a t ih =>
    cases t with
    | nil => simp
    | cons b t2 =>
      rw [List.chain'_cons] at h
      intro p hp
      rcases List.mem_cons.mp hp with hpe | hp2
      · exact hpe ▸ h.1
      · exact ih h.2 p hp2

/-- A column of fewer than two cells is monotonic under every setting. -/
theorem monoGood_short (s : List (Option ℚ)) (h : s.length ≤ 1)
    (d : Option Bool) (strict : Bool) : monoGood s d strict = true := by
  have hz : s.zip s.tail = [] := by
    cases s with
    | nil => rfl
    | cons a t =>
      cases t with
      | nil => rfl
      | cons b t2 => simp at h
  have h1 : is_monotonic_increasing s = true := by
    simp [is_monotonic_increasing, hz]
  have h2 : is_monotonic_decreasing s = true := by
    simp [is_monotonic_decreasing, hz]
  have h3 : diffDropna s = [] := by simp [diffDropna, hz]
  cases d with
  | none => cases strict <;> simp [monoGood, h1, h2, h3]
  | some b => cases b <;> cases strict <;> simp [monoGood, h1, h2, h3]

theorem colData_length_le (df : DataFrame)
    (h : ∀ c ∈ df.cols, c.2.length ≤ 1) (k : String) :
    (colData df k).length ≤ 1 := by
  unfold colData
  cases hf : df.cols.find? (fun c => c.1 == k) with
  | none => simp
  | some c => simpa using h c (List.mem_of_find?_eq_some hf)

/-- Evaluating `is_monotonic` with a single explicit item reduces to the per-column
test. -/
theorem is_monotonic_single (df : DataFrame) (k : String) (d : Option Bool)
    (b : Bool) (i : Option Bool) (s : Bool) :
    is_monotonic df (some [(k, (d, b))]) i s =
      if monoGood (colData df k) d b then .ok df else .error () := by
  simp [is_monotonic]

/-- Claim C3: `is_monotonic` passes on every table whose columns all have fewer
than two cells (empty and single-row tables), under every direction and
strictness combination. -/
theorem is_monotonic_vacuous (df : DataFrame) (inc : Option Bool)
    (strict : Bool) (h : ∀ c ∈ df.cols, c.2.length ≤ 1) :
    is_monotonic df none inc strict = .ok df := by
  unfold is_monotonic
  have : ∀ it ∈ df.cols.map (fun c => (c.1, (inc, strict))),
      monoGood (colData df it.1) it.2.1 it.2.2 = true := by
    intro it hit
    rcases List.mem_map.mp hit with ⟨c, _, rfl⟩
    exact monoGood_short _ (colData_length_le df h c.1) inc strict
  simp only [Option.getD]
  rw [if_pos]
  exact List.all_eq_true.mpr this

/-- Claim C3 witness: the single-row table passes all six direction/strictness
combinations, and so does the empty table. -/
theorem is_monotonic_vacuous_witness :
    is_monotonic dfOneRow none (some true) true = .ok dfOneRow ∧
    is_monotonic dfOneRow none (some true) false = .ok dfOneRow ∧
    is_monotonic dfOneRow none (some false) true = .ok dfOneRow ∧
    is_monotonic dfOneRow none (some false) false = .ok dfOneRow ∧
    is_monotonic dfOneRow none none true = .ok dfOneRow ∧
    is_monotonic dfOneRow none none false = .ok dfOneRow :=
  ⟨is_monotonic_vacuous dfOneRow (some true) true (by decide),
   is_monotonic_vacuous dfOneRow (some true) false (by decide),
   is_monotonic_vacuous dfOneRow (some false) true (by decide),
   is_monotonic_vacuous dfOneRow (some false) false (by decide),
   is_monotonic_vacuous dfOneRow none true (by decide),
   is_monotonic_vacuous dfOneRow none false (by decide)⟩

/-- Claim C4: a column that is non-strictly monotonic in a direction but has an
equal consecutive pair passes the non-strict check and fails the strict one
(same direction); this covers constant columns under all three directions. -/
theorem strictness_tightening (df : DataFrame) (k : String) (col : List ℚ)
    (d : Option Bool) (hk : colData df k = col.map some)
    (hmono : monoGood (col.map some) d false = true)
    (hdup : ∃ p ∈ col.zip col.tail, p.1 = p.2) :
    is_monotonic df (some [(k, (d, false))]) none false = .ok df ∧
    is_monotonic df (some [(k, (d, true))]) none false = .error () := by
  obtain ⟨p, hp, hpe⟩ := hdup
  have hnlt : ¬ List.Chain' (· < ·) col := fun hc =>
    absurd (chain'_of_mem_zip hc p hp) (by rw [hpe]; exact lt_irrefl p.2)
  have hngt : ¬ List.Chain' (fun a b => b < a) col := fun hc =>
    absurd (chain'_of_mem_zip hc p hp) (by rw [hpe]; exact lt_irrefl p.2)
  have hpos : ((diffDropna (col.map some)).all fun x => decide (0 < x)) =
      false :=
    Bool.eq_false_iff.mpr (fun hx => hnlt ((diffPos_iff col).mp hx))
  have hneg : ((diffDropna (col.map some)).all fun x => decide (x < 0)) =
      false :=
    Bool.eq_false_iff.mpr (fun hx => hngt ((diffNeg_iff col).mp hx))
  have hstrict : monoGood (col.map some) d true = false := by
    cases d with
    | none => simp [monoGood, hpos, hneg]
    | some b => cases b <;> simp [monoGood, hpos, hneg]
  constructor
  · rw [is_monotonic_single, hk, if_pos hmono]
  · rw [is_monotonic_single, hk, if_neg (by simp [hstrict])]

/-- Claim C4 witness: the constant column `[5, 5]` passes the non-strict check and
fails the strict one under increasing, decreasing, and unspecified
direction. -/
theorem strictness_tightening_witness :
    (is_monotonic dfConst (some [("a", (some true, false))]) none false
        = .ok dfConst ∧
      is_monotonic dfConst (some [("a", (some true, true))]) none false
        = .error ()) ∧
    (is_monotonic dfConst (some [("a", (some false, false))]) none false
        = .ok dfConst ∧
      is_monotonic dfConst (some [("a", (some false, true))]) none false
        = .error ()) ∧
    (is_monotonic dfConst (some [("a", (none, false))]) none false
        = .ok dfConst ∧
      is_monotonic dfConst (some [("a", (none, true))]) none false
        = .error ()) :=
  ⟨strictness_tightening dfConst "a" [5, 5] (some true) rfl rfl
      ⟨(5, 5), List.mem_cons_self _ _, rfl⟩,
   strictness_tightening dfConst "a" [5, 5] (some false) rfl rfl
      ⟨(5, 5), List.mem_cons_self _ _, rfl⟩,
   strictness_tightening dfConst "a" [5, 5] none rfl rfl
      ⟨(5, 5), List.mem_cons_self _ _, rfl⟩⟩

/-- Claim C5: under unspecified direction, a purely ascending column passes with
and without strictness, a purely descending column passes likewise, and a
column that is neither non-decreasing nor non-increasing fails regardless of
the strictness flag. -/
theorem unspecified_duality (df : DataFrame) (k : String) (col : List ℚ)
    (hk : colData df k = col.map some) :
    (List.Chain' (· < ·) col →
      is_monotonic df (some [(k, (none, false))]) none false = .ok df ∧
      is_monotonic df (some [(k, (none, true))]) none false = .ok df) ∧
    (List.Chain' (fun a b => b < a) col →
      is_monotonic df (some [(k, (none, false))]) none false = .ok df ∧
      is_monotonic df (some [(k, (none, true))]) none false = .ok df) ∧
    (is_monotonic_increasing (col.map some) = false →
      is_monotonic_decreasing (col.map some) = false →
      ∀ strict : Bool,
        is_monotonic df (some [(k, (none, strict))]) none false
          = .error ()) := by
  refine ⟨fun hc => ?_, fun hc => ?_, fun h1 h2 strict => ?_⟩
  · have hbase : is_monotonic_increasing (col.map some) = true :=
      (imi_iff col).mpr (hc.imp (fun a b hab => le_of_lt hab))
    have hpos : ((diffDropna (col.map some)).all fun x => decide (0 < x)) =
        true := (diffPos_iff col).mpr hc
    constructor
    · rw [is_monotonic_single, hk, if_pos (by simp [monoGood, hbase])]
    · rw [is_monotonic_single, hk,
        if_pos (by simp [monoGood, hbase, hpos])]
  · have hbase : is_monotonic_decreasing (col.map some) = true :=
      (imd_iff col).mpr (hc.imp (fun a b hab => le_of_lt hab))
    have hneg : ((diffDropna (col.map some)).all fun x => decide (x < 0)) =
        true := (diffNeg_iff col).mpr hc
    constructor
    · rw [is_monotonic_single, hk, if_pos (by simp [monoGood, hbase])]
    · rw [is_monotonic_single, hk,
        if_pos (by simp [monoGood, hbase, hneg])]
  · have hbad : monoGood (col.map some) none strict = false := by
      cases strict <;> simp [monoGood, h1, h2]
    rw [is_monotonic_single, hk, if_neg (by simp [hbad])]

/-- Claim C5 witness: `[1, 2, 3]` and `[3, 2, 1]` pass unspecified direction with
and without strictness; `[1, 3, 2]` fails it under both strictness flags. -/
theorem unspecified_duality_witness :
    (is_monotonic dfAsc (some [("a", (none, false))]) none false
        = .ok dfAsc ∧
      is_monotonic dfAsc (some [("a", (none, true))]) none false
        = .ok dfAsc) ∧
    (is_monotonic dfDesc (some [("a", (none, false))]) none false
        = .ok dfDesc ∧
      is_monotonic dfDesc (some [("a", (none, true))]) none false
        = .ok dfDesc) ∧
    (is_monotonic dfWiggle (some [("a", (none, false))]) none false
        = .error () ∧
      is_monotonic dfWiggle (some [("a", (none, true))]) none false
        = .error ()) :=
  ⟨(unspecified_duality dfAsc "a" [1, 2, 3] rfl).1
      (by norm_num [List.chain'_cons, List.chain'_singleton]),
   (unspecified_duality dfDesc "a" [3, 2, 1] rfl).2.1
      (by norm_num [List.chain'_cons, List.chain'_singleton]),
   (unspecified_duality dfWiggle "a" [1, 3, 2] rfl).2.2 rfl rfl false,
   (unspecified_duality dfWiggle "a" [1, 3, 2] rfl).2.2 rfl rfl true⟩

/-! ### Range and set membership -/

theorem any_false_forall {α : Type} (l : List α) (p : α → Bool)
    (h : l.any p = false) : ∀ x ∈ l, p x = false := by
  intro x hx
  cases hpx : p x with
  | false => rfl
  | true => exact absurd (List.any_eq_true.mpr ⟨x, hx, hpx⟩) (by simp [h])

theorem forall_any_false {α : Type} (l : List α) (p : α → Bool)
    (h : ∀ x ∈ l, p x = false) : l.any p = false := by
  cases hx : l.any p with
  | false => rfl
  | true =>
    obtain ⟨c, hc, hpc⟩ := List.any_eq_true.mp hx
    rw [h c hc] at hpc
    cases hpc

theorem within_range_ok_iff (df : DataFrame)
    (items : List (String × (ℚ × ℚ))) :
    within_range df items = .ok df ↔
      ∀ p ∈ items, ∀ c ∈ colData df p.1, rangeBadCell p.2.1 p.2.2 c = false := by
  induction items with
  | nil => simp [within_range]
  | cons a rest ih =>
    obtain ⟨k, b⟩ := a
    rw [within_range]
    cases hany : (colData df k).any (rangeBadCell b.1 b.2) with
    | true =>
      rw [if_pos rfl]
      apply iff_of_false
      · simp
      · intro hall
        obtain ⟨c, hc, hbad⟩ := List.any_eq_true.mp hany
        rw [hall (k, b) (List.mem_cons_self _ _) c hc] at hbad
        cases hbad
    | false =>
      rw [if_neg (by simp), ih]
      constructor
      · intro hrest p hp
        rcases List.mem_cons.mp hp with hpe | hp2
        · subst hpe
          exact any_false_forall _ _ hany
        · exact hrest p hp2
      · intro hall p hp
        exact hall p (List.mem_cons_of_mem _ hp)

theorem within_range_error_first (df : DataFrame)
    (pre post : List (String × (ℚ × ℚ))) (k : String) (l u : ℚ)
    (hpre : ∀ p ∈ pre, ∀ c ∈ colData df p.1, rangeBadCell p.2.1 p.2.2 c = false)
    (hbad : (colData df k).any (rangeBadCell l u) = true) :
    within_range df (pre ++ (k, (l, u)) :: post)
      = .error ("Outside range", rangeBadMask df k l u) := by
  induction pre with
  | nil =>
    rw [List.nil_append, within_range, if_pos hbad]
  | cons a pre2 ih =>
    obtain ⟨k2, b2⟩ := a
    have hhead : (colData df k2).any (rangeBadCell b2.1 b2.2) = false :=
      forall_any_false _ _ (hpre (k2, b2) (List.mem_cons_self _ _))
    rw [List.cons_append, within_range, if_neg (by simp [hhead])]
    exact ih (fun p hp => hpre p (List.mem_cons_of_mem _ hp))

theorem within_range_ne_ok_of_bad (df : DataFrame)
    (items : List (String × (ℚ × ℚ))) (k : String) (l u : ℚ)
    (hmem : (k, (l, u)) ∈ items)
    (hbad : (colData df k).any (rangeBadCell l u) = true) :
    within_range df items ≠ .ok df := by
  intro hok
  rw [within_range_ok_iff] at hok
  obtain ⟨c, hc, hb⟩ := List.any_eq_true.mp hbad
  rw [hok (k, (l, u)) hmem c hc] at hb
  cases hb

/-- Claim C6: `within_range` bounds are inclusive: a cell is bad exactly when its
value is below `lower` or above `upper`, so values equal to either bound pass;
the check succeeds iff no checked column holds a bad value, and the first
column (in `items` order) holding one raises with that column's boolean
offender mask as payload. -/
theorem within_range_spec (df : DataFrame) (items : List (String × (ℚ × ℚ)))
    (l u v : ℚ) (hlu : l ≤ u) :
    (rangeBadCell l u (some v) = true ↔ (v < l ∨ u < v)) ∧
    (rangeBadCell l u (some l) = false ∧ rangeBadCell l u (some u) = false) ∧
    (within_range df items = .ok df ↔
      ∀ p ∈ items, ∀ c ∈ colData df p.1, rangeBadCell p.2.1 p.2.2 c = false) ∧
    (∀ pre post k2 l2 u2, items = pre ++ (k2, (l2, u2)) :: post →
      (∀ p ∈ pre, ∀ c ∈ colData df p.1, rangeBadCell p.2.1 p.2.2 c = false) →
      (∃ c ∈ colData df k2, rangeBadCell l2 u2 c = true) →
      within_range df items
        = .error ("Outside range", rangeBadMask df k2 l2 u2)) := by
  refine ⟨?_, ⟨?_, ?_⟩, within_range_ok_iff df items, ?_⟩
  · simp [rangeBadCell]
  · simp [rangeBadCell, le_refl, hlu, not_lt.mpr hlu]
  · simp [rangeBadCell, le_refl, hlu, not_lt.mpr hlu]
  · intro pre post k2 l2 u2 heq hpre hex
    subst heq
    exact within_range_error_first df pre post k2 l2 u2 hpre
      (List.any_eq_true.mpr hex)

/-- Claim C6 witness: with `a ∈ [1, 5]` every cell of `a` (including the two cells
exactly at the bounds) passes, and with `g ∈ [0, 3]` the value `4` in row `1`
is the first offence, reported as that column's offender mask. -/
theorem within_range_spec_witness :
    (rangeBadCell 0 3 (some 4) = true ∧ ((4 : ℚ) < 0 ∨ (3 : ℚ) < 4)) ∧
    (rangeBadCell 1 5 (some 1) = false ∧ rangeBadCell 1 5 (some 5) = false) ∧
    within_range dfItems [("a", (1, 5))] = .ok dfItems ∧
    within_range dfItems [("a", (1, 5)), ("g", (0, 3)), ("h", (0, 100))]
      = .error ("Outside range", [(0, false), (1, true), (2, false)]) := by
  have hbig := within_range_spec dfItems
    [("a", (1, 5)), ("g", (0, 3)), ("h", (0, 100))] 0 3 4 (by norm_num)
  have hone := within_range_spec dfItems [("a", (1, 5))] 1 5 4 (by norm_num)
  refine ⟨⟨hbig.1.mpr (Or.inr (by norm_num)), Or.inr (by norm_num)⟩,
    hone.2.1, hone.2.2.1.mpr (by decide), ?_⟩
  have he := hbig.2.2.2 [("a", (1, 5))] [("h", (0, 100))] "g" 0 3 rfl
    (by decide) ⟨some 4, by decide, rfl⟩
  exact he.trans (by rfl)

/-- Helper: `within_set` succeeds iff every checked column is a subset of its
allowed values. -/
theorem within_set_ok_iff (df : DataFrame)
    (items : List (String × List (Option ℚ))) :
    within_set df items = .ok df ↔
      ∀ p ∈ items, ∀ x ∈ colData df p.1, isin x p.2 = true := by
  induction items with
  | nil => simp [within_set]
  | cons a rest ih =>
    obtain ⟨k, v⟩ := a
    rw [within_set]
    cases hall : (colData df k).all (fun x => isin x v) with
    | true =>
      rw [if_pos rfl, ih]
      constructor
      · intro hrest p hp
        rcases List.mem_cons.mp hp with hpe | hp2
        · subst hpe
          exact fun x hx => List.all_eq_true.mp hall x hx
        · exact hrest p hp2
      · intro hx p hp
        exact hx p (List.mem_cons_of_mem _ hp)
    | false =>
      rw [if_neg (by simp)]
      apply iff_of_false
      · simp
      · intro hx
        have : (colData df k).all (fun x => isin x v) = true :=
          List.all_eq_true.mpr (fun x hxm => hx (k, v) (List.mem_cons_self _ _) x hxm)
        rw [hall] at this
        cases this

theorem within_set_error_first (df : DataFrame)
    (pre post : List (String × List (Option ℚ))) (k : String)
    (v : List (Option ℚ))
    (hpre : ∀ p ∈ pre, ∀ x ∈ colData df p.1, isin x p.2 = true)
    (hbad : (colData df k).all (fun x => isin x v) = false) :
    within_set df (pre ++ (k, v) :: post)
      = .error ("Not in set", setBad df k v) := by
  induction pre with
  | nil =>
    rw [List.nil_append, within_set, if_neg (by simp [hbad])]
  | cons a pre2 ih =>
    obtain ⟨k2, v2⟩ := a
    have hhead : (colData df k2).all (fun x => isin x v2) = true :=
      List.all_eq_true.mpr (fun x hx => hpre (k2, v2) (List.mem_cons_self _ _) x hx)
    rw [List.cons_append, within_set, if_pos hhead]
    exact ih (fun p hp => hpre p (List.mem_cons_of_mem _ hp))

/-- Claim C7: `within_set` succeeds (returning the table) iff every checked
column is a subset of its allowed values, and otherwise raises on the first
offending column in `items` iteration order -- regardless of the columns
after it -- with payload the sub-series of non-member values keyed by row
identifier. -/
theorem within_set_spec (df : DataFrame)
    (items : List (String × List (Option ℚ))) :
    (within_set df items = .ok df ↔
      ∀ p ∈ items, ∀ x ∈ colData df p.1, isin x p.2 = true) ∧
    (∀ pre post k v, items = pre ++ (k, v) :: post →
      (∀ p ∈ pre, ∀ x ∈ colData df p.1, isin x p.2 = true) →
      (∃ x ∈ colData df k, isin x v = false) →
      within_set df items = .error ("Not in set", setBad df k v)) := by
  refine ⟨within_set_ok_iff df items, ?_⟩
  intro pre post k v heq hpre hex
  subst heq
  obtain ⟨x, hx, hnx⟩ := hex
  apply within_set_error_first df pre post k v hpre
  cases hall : (colData df k).all (fun y => isin y v) with
  | false => rfl
  | true =>
    rw [List.all_eq_true.mp hall x hx] at hnx
    cases hnx

/-- Claim C7 witness: checking `p ⊆ {1}` then `g ⊆ {1,2,3}` then `h ⊆ {0}` on the
witness table fails on `g` (the first offender), with payload the row-keyed
non-member value `4` at row `1`; the later all-bad column `h` is not
reported.  Checking only subset columns returns the table. -/
theorem within_set_spec_witness :
    within_set dfItems [("g", [some 1, some 3, some 4, some 5])]
      = .ok dfItems ∧
    within_set dfItems
      [("a", [some 1, some 3, some 5]), ("g", [some 1, some 2, some 3]),
       ("h", [some 0])]
      = .error ("Not in set", [(1, some 4)]) := by
  constructor
  · exact (within_set_spec dfItems
      [("g", [some 1, some 3, some 4, some 5])]).1.mpr (by decide)
  · have he := (within_set_spec dfItems
      [("a", [some 1, some 3, some 5]), ("g", [some 1, some 2, some 3]),
       ("h", [some 0])]).2
      [("a", [some 1, some 3, some 5])] [("h", [some 0])]
      "g" [some 1, some 2, some 3] rfl (by decide) ⟨some 4, by decide, rfl⟩
    exact he.trans (by rfl)

/-! ### Unique index -/

/-- Claim C8: `unique_index` returns the table unchanged iff every row identifier
occurs exactly once in the index; otherwise it raises, and the payload holds
exactly the identifiers occurring at least twice (their values, not their
positions). -/
theorem unique_index_spec (df : DataFrame) :
    (unique_index df = .ok df ↔ ∀ v ∈ df.index, df.index.count v = 1) ∧
    (∀ e, unique_index df = .error e →
      ∀ v, v ∈ e ↔ 2 ≤ df.index.count v) := by
  constructor
  · rw [unique_index]
    cases hnd : decide df.index.Nodup with
    | true =>
      have hnd2 := of_decide_eq_true hnd
      rw [if_pos hnd2]
      exact iff_of_true rfl (List.nodup_iff_count_eq_one.mp hnd2)
    | false =>
      have hnd2 := of_decide_eq_false hnd
      rw [if_neg hnd2]
      apply iff_of_false
      · simp
      · exact fun hc => hnd2 (List.nodup_iff_count_eq_one.mpr hc)
  · intro e he v
    rw [unique_index] at he
    cases hnd : decide df.index.Nodup with
    | true =>
      rw [if_pos (of_decide_eq_true hnd)] at he
      cases he
    | false =>
      rw [if_neg (of_decide_eq_false hnd)] at he
      have hev : e = get_duplicates df.index := by
        injection he with h2
        exact h2.symm
      subst hev
      rw [get_duplicates]
      simp only [List.mem_filter, List.mem_dedup, decide_eq_true_eq]
      constructor
      · exact fun h => h.2
      · exact fun h => ⟨List.count_pos_iff.mp (by omega), h⟩

/-- Claim C8 witness: index `[1, 2, 2, 3]` fails with duplicate set `{2}`; index
`[1, 2, 3]` passes. -/
theorem unique_index_spec_witness :
    unique_index dfUniq = .ok dfUniq ∧
    unique_index dfDup = .error [2] ∧
    ((2 : ℚ) ∈ ([2] : List ℚ) ↔ 2 ≤ dfDup.index.count 2) := by
  refine ⟨(unique_index_spec dfUniq).1.mpr (by decide), rfl, ?_⟩
  exact (unique_index_spec dfDup).2 [2] rfl 2

/-- Claim C10 counterexample: inverted bounds `lower = 5 > upper = 1` on the
non-empty column `a` of `dfNaN` (one row, holding a missing value): the
claim says `within_range` must raise, but the check passes, because both
comparisons against NaN are false. -/
theorem inverted_range_counterexample :
    (1 : ℚ) < 5 ∧ colData dfNaN "a" ≠ [] ∧
    within_range dfNaN [("a", (5, 1))] = .ok dfNaN :=
  ⟨by norm_num, by simp [colData, dfNaN], rfl⟩

/-- Claim C10 (amended): if some column is given inverted bounds `lower > upper`
and that column contains at least one non-missing value, `within_range`
raises: every actual value `v` satisfies `v < lower` or `v > upper`, so no
table with data in that column can pass an empty range. -/
theorem inverted_range_raises (df : DataFrame)
    (items : List (String × (ℚ × ℚ))) (k : String) (l u : ℚ)
    (hmem : (k, (l, u)) ∈ items) (hinv : u < l)
    (hval : ∃ x, some x ∈ colData df k) :
    within_range df items ≠ .ok df := by
  obtain ⟨x, hx⟩ := hval
  apply within_range_ne_ok_of_bad df items k l u hmem
  apply List.any_eq_true.mpr
  refine ⟨some x, hx, ?_⟩
  rw [rangeBadCell]
  rcases lt_or_le x l with hc | hc
  · simp [hc]
  · simp [lt_of_lt_of_le hinv hc]

/-- Claim C10 witness: bounds `(5, 1)` on the one-value column of `dfVal` raise. -/
theorem inverted_range_raises_witness :
    within_range dfVal [("a", (5, 1))] ≠ .ok dfVal :=
  inverted_range_raises dfVal [("a", (5, 1))] "a" 5 1
    (List.mem_cons_self _ _) (by norm_num) ⟨3, by decide⟩

/-! ### Outlier bound (`within_n_std`) -/

theorem within_n_std_ok_iff (df : DataFrame) (n : ℚ) :
    within_n_std df n = .ok df ↔
      ∀ c ∈ df.cols, ∀ v ∈ c.2, inlierCell c.2 n v = true := by
  rw [within_n_std]
  cases hany : (outlierMask df n).any (fun c => c.2.any id) with
  | true =>
    rw [if_pos rfl]
    apply iff_of_false
    · simp
    · intro hall
      obtain ⟨c, hc, hcy⟩ := List.any_eq_true.mp hany
      rw [outlierMask] at hc
      obtain ⟨c0, hc0, rfl⟩ := List.mem_map.mp hc
      obtain ⟨b, hb, hbi⟩ := List.any_eq_true.mp hcy
      obtain ⟨v, hv, rfl⟩ := List.mem_map.mp hb
      rw [hall c0 hc0 v hv] at hbi
      cases hbi
  | false =>
    rw [if_neg (by simp)]
    apply iff_of_true rfl
    intro c hc v hv
    have hcol :
        (c.1, c.2.map (fun v => !inlierCell c.2 n v)) ∈ outlierMask df n :=
      List.mem_map.mpr ⟨c, hc, rfl⟩
    have hno := any_false_forall _ _ hany _ hcol
    have := any_false_forall _ _ hno (!inlierCell c.2 n v)
      (List.mem_map.mpr ⟨v, hv, rfl⟩)
    simpa using this

theorem within_n_std_raises (df : DataFrame) (n : ℚ) (k : String)
    (col : List (Option ℚ)) (v : Option ℚ) (hmem : (k, col) ∈ df.cols)
    (hv : v ∈ col) (hbad : inlierCell col n v = false) :
    within_n_std df n
      = .error (bad_locations df.index (outlierMask df n)) := by
  rw [within_n_std, if_pos]
  apply List.any_eq_true.mpr
  refine ⟨(k, col.map (fun x => !inlierCell col n x)),
    List.mem_map.mpr ⟨(k, col), hmem, rfl⟩, ?_⟩
  apply List.any_eq_true.mpr
  exact ⟨!inlierCell col n v, List.mem_map.mpr ⟨v, hv, rfl⟩, by simp [hbad]⟩

theorem nonNull_const (col : List (Option ℚ)) (x : ℚ)
    (h : ∀ v ∈ col, v = some x) :
    nonNull col = List.replicate col.length x := by
  induction col with
  | nil => rfl
  | cons a t ih =>
    have ha := h a (List.mem_cons_self _ _)
    subst ha
    rw [List.length_cons, List.replicate_succ]
    rw [show nonNull (some x :: t) = x :: nonNull t from rfl]
    rw [ih (fun v hv => h v (List.mem_cons_of_mem _ hv))]

theorem colMean_replicate (m : ℕ) (x : ℚ) (hm : m ≠ 0) :
    colMean (List.replicate m x) = x := by
  rw [colMean, List.sum_replicate, List.length_replicate, nsmul_eq_mul]
  rw [mul_comm, mul_div_assoc,
    div_self (show ((m : ℚ)) ≠ 0 from by exact_mod_cast hm), mul_one]

theorem colVar_replicate (m : ℕ) (x : ℚ) (hm : m ≠ 0) :
    colVar (List.replicate m x) = 0 := by
  rw [colVar, colMean_replicate m x hm, List.map_replicate]
  simp

/-- A constant cell of a constant column is never an inlier: its distance to
the mean is zero and so is `n * std`, and the comparison is strict (with a
single row the standard deviation is NaN instead, and the comparison is
still false). -/
theorem inlierCell_const (col : List (Option ℚ)) (x : ℚ) (n : ℚ)
    (h : ∀ v ∈ col, v = some x) :
    inlierCell col n (some x) = false := by
  rw [inlierCell, nonNull_const col x h]
  cases hle : decide (2 ≤ (List.replicate col.length x).length) with
  | false => rw [if_neg (of_decide_eq_false hle)]
  | true =>
    have h2 := of_decide_eq_true hle
    rw [List.length_replicate] at h2
    rw [if_pos (by simpa using h2)]
    rw [colMean_replicate _ _ (by omega), colVar_replicate _ _ (by omega)]
    simp

/-- Claim C1 counterexample: in `dfBoundary` the column `a` has mean `0`, sample
variance `9` (std exactly `3`), and its first cell `9` lies exactly at
`mean + 3 * std` (so `(9 - mean)^2 = 3^2 * var`).  The claim says such a cell
is an inlier and does not make `within_n_std` raise; in fact the comparison
is strict, the cell is an outlier, and the check raises. -/
theorem outlier_boundary_counterexample :
    some 9 ∈ colData dfBoundary "a" ∧
    (9 - colMean (nonNull (colData dfBoundary "a"))) ^ 2
      = 3 ^ 2 * colVar (nonNull (colData dfBoundary "a")) ∧
    inlierCell (colData dfBoundary "a") 3 (some 9) = false ∧
    within_n_std dfBoundary 3 ≠ .ok dfBoundary := by
  have hnn : nonNull (colData dfBoundary "a")
      = [9, -1, -1, -1, -1, -1, -1, -1, -1, -1, 0] := rfl
  have hmean : colMean (nonNull (colData dfBoundary "a")) = 0 := by
    rw [hnn]
    norm_num [colMean, List.sum_cons, List.sum_nil]
  have hvar : colVar (nonNull (colData dfBoundary "a")) = 9 := by
    rw [hnn]
    norm_num [colVar, colMean, List.sum_cons, List.sum_nil, List.map_cons,
      List.map_nil]
  have hout : inlierCell (colData dfBoundary "a") 3 (some 9) = false := by
    rw [inlierCell, hnn]
    rw [show nonNull (colData dfBoundary "a")
        = [9, -1, -1, -1, -1, -1, -1, -1, -1, -1, 0] from rfl] at hmean hvar
    rw [if_pos (by norm_num), hmean, hvar]
    norm_num
  refine ⟨List.mem_cons_self _ _, ?_, hout, ?_⟩
  · rw [hmean, hvar]
    norm_num
  · intro hok
    have hbad := within_n_std_raises dfBoundary 3 "a"
      (colData dfBoundary "a") (some 9) (List.mem_cons_self _ _)
      (List.mem_cons_self _ _) hout
    rw [hok] at hbad
    cases hbad

/-- Claim C1 (amended): for every multiplier `n ≥ 0` (the claim's regime,
default `3`), `within_n_std` uses a strict comparison: a cell is an inlier
iff its column has at least two non-missing values and
`(x - mean)^2 < n^2 * var` (i.e. `|x - mean| < n * std`); a cell exactly at
`mean ± n * std` (squared: `(x - mean)^2 = n^2 * var`) is therefore an
outlier; and the check returns the table iff every cell of every column is an
inlier, raising otherwise. -/
theorem within_n_std_boundary_spec (df : DataFrame) (n x : ℚ)
    (col : List (Option ℚ)) (hn : 0 ≤ n) :
    (inlierCell col n (some x) = true ↔
      (2 ≤ (nonNull col).length ∧
        (x - colMean (nonNull col)) ^ 2 < n ^ 2 * colVar (nonNull col))) ∧
    ((x - colMean (nonNull col)) ^ 2 = n ^ 2 * colVar (nonNull col) →
      inlierCell col n (some x) = false) ∧
    (within_n_std df n = .ok df ↔
      ∀ c ∈ df.cols, ∀ v ∈ c.2, inlierCell c.2 n v = true) := by
  refine ⟨?_, ?_, within_n_std_ok_iff df n⟩
  · rw [inlierCell]
    cases hle : decide (2 ≤ (nonNull col).length) with
    | false =>
      have := of_decide_eq_false hle
      rw [if_neg this]
      simp [this]
    | true =>
      have := of_decide_eq_true hle
      rw [if_pos this]
      simp [this, hn]
  · intro heq
    rw [inlierCell]
    cases hle : decide (2 ≤ (nonNull col).length) with
    | false => rw [if_neg (of_decide_eq_false hle)]
    | true =>
      rw [if_pos (of_decide_eq_true hle)]
      simp [heq]

/-- Claim C1 (amended) witness: in `dfBoundary` the cell `9` satisfies the boundary
equation exactly and is classified an outlier; `dfPass` (column `[1, 2]`,
every cell strictly within `3` stds) passes. -/
theorem within_n_std_boundary_spec_witness :
    inlierCell (colData dfBoundary "a") 3 (some 9) = false ∧
    within_n_std dfPass 3 = .ok dfPass := by
  have hnn : nonNull (colData dfBoundary "a")
      = [9, -1, -1, -1, -1, -1, -1, -1, -1, -1, 0] := rfl
  have hmean : colMean (nonNull (colData dfBoundary "a")) = 0 := by
    rw [hnn]
    norm_num [colMean, List.sum_cons, List.sum_nil]
  have hvar : colVar (nonNull (colData dfBoundary "a")) = 9 := by
    rw [hnn]
    norm_num [colVar, colMean, List.sum_cons, List.sum_nil, List.map_cons,
      List.map_nil]
  constructor
  · exact (within_n_std_boundary_spec dfBoundary 3 9
      (colData dfBoundary "a") (by norm_num)).2.1
      (by rw [hmean, hvar]; norm_num)
  · have hm2 : colMean [1, 2] = 3 / 2 := by
      norm_num [colMean, List.sum_cons, List.sum_nil]
    have hv2 : colVar [1, 2] = 1 / 2 := by
      norm_num [colVar, colMean, List.sum_cons, List.sum_nil, List.map_cons,
        List.map_nil]
    have h1 : inlierCell [some 1, some 2] 3 (some 1) = true := by
      simp only [inlierCell, show nonNull [some 1, some 2] = [1, 2] from rfl,
        hm2, hv2]
      norm_num
    have h2 : inlierCell [some 1, some 2] 3 (some 2) = true := by
      simp only [inlierCell, show nonNull [some 1, some 2] = [1, 2] from rfl,
        hm2, hv2]
      norm_num
    apply (within_n_std_boundary_spec dfPass 3 9 [] (by norm_num)).2.2.mpr
    intro c hc v hv
    rcases List.mem_cons.mp hc with hce | hce
    · subst hce
      rcases List.mem_cons.mp hv with hve | hve
      · exact hve ▸ h1
      · rcases List.mem_cons.mp hve with hv2 | hv2
        · exact hv2 ▸ h2
        · cases hv2
    · cases hce

/-- Claim C9: a non-empty all-equal (constant) column makes `within_n_std` raise
for every positive `n`: with two or more rows the column's standard deviation
is `0` and no cell satisfies the strict inequality; with a single row the
standard deviation is undefined (NaN) and the comparison is false as well.
Every cell of the constant column is reported as an outlier. -/
theorem constant_column_raises (df : DataFrame) (n : ℚ) (k : String)
    (col : List (Option ℚ)) (x : ℚ) (hn : 0 < n) (hmem : (k, col) ∈ df.cols)
    (hne : col ≠ []) (hconst : ∀ v ∈ col, v = some x) :
    within_n_std df n
      = .error (bad_locations df.index (outlierMask df n)) ∧
    ∀ v ∈ col, inlierCell col n v = false := by
  have hbadall : ∀ v ∈ col, inlierCell col n v = false := by
    intro v hv
    rw [hconst v hv]
    exact inlierCell_const col x n hconst
  obtain ⟨v0, hv0⟩ := List.exists_mem_of_ne_nil col hne
  exact ⟨within_n_std_raises df n k col v0 hmem hv0 (hbadall v0 hv0),
    hbadall⟩

/-- Claim C9 witness: the constant column `[5, 5]` of `dfConst` makes the check
raise at `n = 3`. -/
theorem constant_column_raises_witness :
    within_n_std dfConst 3
      = .error (bad_locations dfConst.index (outlierMask dfConst 3)) :=
  (constant_column_raises dfConst 3 "a" [some 5, some 5] 5 (by norm_num)
    (List.mem_cons_self _ _) (by simp)
    (by intro v hv; rcases List.mem_cons.mp hv with h | h;
        · exact h
        · simpa using h)).1

/-! ### Pass-through identity -/

theorem none_missing_ok_eq (df : DataFrame) (columns : Option (List String))
    (t : DataFrame) (h : none_missing df columns = .ok t) : t = df := by
  simp only [none_missing] at h
  split at h
  · exact Except.noConfusion h
  · injection h with h2
    exact h2.symm

theorem is_monotonic_ok_eq (df : DataFrame)
    (items : Option (List (String × (Option Bool × Bool))))
    (inc : Option Bool) (st : Bool) (t : DataFrame)
    (h : is_monotonic df items inc st = .ok t) : t = df := by
  simp only [is_monotonic] at h
  split at h
  · injection h with h2
    exact h2.symm
  · exact Except.noConfusion h

theorem is_shape_ok_eq (df : DataFrame) (sh : Nat × Nat) (t : DataFrame)
    (h : is_shape df sh = .ok t) : t = df := by
  simp only [is_shape] at h
  split at h
  · injection h with h2
    exact h2.symm
  · exact Except.noConfusion h

theorem unique_index_ok_eq (df : DataFrame) (t : DataFrame)
    (h : unique_index df = .ok t) : t = df := by
  simp only [unique_index] at h
  split at h
  · injection h with h2
    exact h2.symm
  · exact Except.noConfusion h

theorem within_set_ok_eq (df : DataFrame)
    (items : List (String × List (Option ℚ))) (t : DataFrame)
    (h : within_set df items = .ok t) : t = df := by
  induction items with
  | nil =>
    injection h with h2
    exact h2.symm
  | cons a rest ih =>
    obtain ⟨k, v⟩ := a
    rw [within_set] at h
    split at h
    · exact ih h
    · exact Except.noConfusion h

theorem within_range_ok_eq (df : DataFrame)
    (items : List (String × (ℚ × ℚ))) (t : DataFrame)
    (h : within_range df items = .ok t) : t = df := by
  induction items with
  | nil =>
    injection h with h2
    exact h2.symm
  | cons a rest ih =>
    obtain ⟨k, b⟩ := a
    rw [within_range] at h
    split at h
    · exact Except.noConfusion h
    · exact ih h

theorem within_n_std_ok_eq (df : DataFrame) (n : ℚ) (t : DataFrame)
    (h : within_n_std df n = .ok t) : t = df := by
  simp only [within_n_std] at h
  split at h
  · exact Except.noConfusion h
  · injection h with h2
    exact h2.symm

theorem has_dtypes_ok_eq (df : DataFrame) (items : List (String × String))
    (t : DataFrame) (h : has_dtypes df items = .ok t) : t = df := by
  induction items with
  | nil =>
    injection h with h2
    exact h2.symm
  | cons a rest ih =>
    obtain ⟨k, v⟩ := a
    rw [has_dtypes] at h
    split at h
    · exact ih h
    · exact Except.noConfusion h

/-- Claim C2: every check in the library, whenever it succeeds, returns exactly
the table it was given (in this embedding: the successful result is the
input `DataFrame` value, never a modified or rebuilt one), so checks can be
chained. -/
theorem pass_through_identity (df t : DataFrame)
    (columns : Option (List String))
    (mitems : Option (List (String × (Option Bool × Bool))))
    (inc : Option Bool) (st : Bool) (sh : Nat × Nat)
    (sitems : List (String × List (Option ℚ)))
    (ritems : List (String × (ℚ × ℚ))) (n : ℚ)
    (ditems : List (String × String)) :
    (none_missing df columns = .ok t → t = df) ∧
    (is_monotonic df mitems inc st = .ok t → t = df) ∧
    (is_shape df sh = .ok t → t = df) ∧
    (unique_index df = .ok t → t = df) ∧
    (within_set df sitems = .ok t → t = df) ∧
    (within_range df ritems = .ok t → t = df) ∧
    (within_n_std df n = .ok t → t = df) ∧
    (has_dtypes df ditems = .ok t → t = df) :=
  ⟨none_missing_ok_eq df columns t, is_monotonic_ok_eq df mitems inc st t,
   is_shape_ok_eq df sh t, unique_index_ok_eq df t,
   within_set_ok_eq df sitems t, within_range_ok_eq df ritems t,
   within_n_std_ok_eq df n t, has_dtypes_ok_eq df ditems t⟩

/-- Claim C2 witness: all eight checks succeed on `dfPass` and return it. -/
theorem pass_through_identity_witness :
    none_missing dfPass none = .ok dfPass ∧
    is_monotonic dfPass none (some true) false = .ok dfPass ∧
    is_shape dfPass (2, 1) = .ok dfPass ∧
    unique_index dfPass = .ok dfPass ∧
    within_set dfPass [("a", [some 1, some 2])] = .ok dfPass ∧
    within_range dfPass [("a", (0, 5))] = .ok dfPass ∧
    within_n_std dfPass 3 = .ok dfPass ∧
    has_dtypes dfPass [("a", "int64")] = .ok dfPass ∧
    dfPass = dfPass := by
  have hm2 : colMean [1, 2] = 3 / 2 := by
    norm_num [colMean, List.sum_cons, List.sum_nil]
  have hv2 : colVar [1, 2] = 1 / 2 := by
    norm_num [colVar, colMean, List.sum_cons, List.sum_nil, List.map_cons,
      List.map_nil]
  have h1 : inlierCell [some 1, some 2] 3 (some 1) = true := by
    simp only [inlierCell, show nonNull [some 1, some 2] = [1, 2] from rfl,
      hm2, hv2]
    norm_num
  have h2 : inlierCell [some 1, some 2] 3 (some 2) = true := by
    simp only [inlierCell, show nonNull [some 1, some 2] = [1, 2] from rfl,
      hm2, hv2]
    norm_num
  have hstd : within_n_std dfPass 3 = .ok dfPass := by
    apply (within_n_std_ok_iff dfPass 3).mpr
    intro c hc v hv
    rcases List.mem_cons.mp hc with hce | hce
    · subst hce
      rcases List.mem_cons.mp hv with hve | hve
      · exact hve ▸ h1
      · rcases List.mem_cons.mp hve with hv2e | hv2e
        · exact hv2e ▸ h2
        · cases hv2e
    · cases hce
  have hnm : none_missing dfPass none = .ok dfPass := rfl
  exact ⟨hnm, rfl, rfl, rfl, rfl, rfl, hstd, rfl,
    (pass_through_identity dfPass dfPass none none (some true) false (2, 1)
      [("a", [some 1, some 2])] [("a", (0, 5))] 3 [("a", "int64")]).1 hnm⟩

end Engarde
